import Mathlib

/-!
Shallow embedding of ext/date/lib/interval.c (timelib interval arithmetic):
sorting/inversion of two instants, the same-named-zone diff with DST
corrections, the cross-zone diff, the day counter, interval application
(add/sub), and microsecond range reduction.

C signed integers are modelled as Int.  C division and remainder on signed
operands truncate toward zero, so they are embedded as Int.tdiv and
Int.tmod.  External collaborators that live outside this source file
(normalization, timezone lookup, epoch conversion, comparison helpers) are
either taken as function parameters or modelled from the specification;
each such definition carries a doc comment saying so.
-/

/-- Zone descriptor kinds of a timelib_time: fixed offset (ZONETYPE_OFFSET),
abbreviation (ZONETYPE_ABBR), or named identifier zone (ZONETYPE_ID). -/
inductive ZoneType where
  | offsetZone : ZoneType
  | abbrZone : ZoneType
  | idZone : ZoneType
deriving DecidableEq

/-- A named-identifier timezone: its database name and its transition table,
a list of (transition time, UTC offset in effect from that time, dst flag),
assumed sorted by transition time in ascending order. -/
structure TzInfo where
  name : String
  trans : List (Int × Int × Int)
deriving DecidableEq

/-- timelib_rel_time: a signed calendar delta.  Fields mirror the C struct:
numeric deltas y/m/d/h/i/s/us, weekday-relative data, the invert flag
(an int, 0 or 1), the total-day counter and special-relative data. -/
structure RelTime where
  y : Int
  m : Int
  d : Int
  h : Int
  i : Int
  s : Int
  us : Int
  weekday : Int
  weekday_behavior : Int
  first_last_day_of : Int
  invert : Int
  days : Int
  special_type : Int
  special_amount : Int
  have_weekday_relative : Bool
  have_special_relative : Bool
deriving DecidableEq

/-- The all-zero relative time, as produced by timelib_rel_time_ctor
(calloc) and by memset(&t->relative, 0, sizeof(timelib_rel_time)). -/
def zeroRel : RelTime :=
  { y := 0, m := 0, d := 0, h := 0, i := 0, s := 0, us := 0,
    weekday := 0, weekday_behavior := 0, first_last_day_of := 0,
    invert := 0, days := 0, special_type := 0, special_amount := 0,
    have_weekday_relative := false, have_special_relative := false }

/-- timelib_time: a timezone-aware instant.  Calendar fields y/m/d/h/i/s/us,
epoch seconds sse, UTC offset z (seconds), dst flag, the zone descriptor,
and the transient relative-delta slot with its bookkeeping flags. -/
structure Time where
  y : Int
  m : Int
  d : Int
  h : Int
  i : Int
  s : Int
  us : Int
  sse : Int
  z : Int
  dst : Int
  zone_type : ZoneType
  tz_info : Option TzInfo
  relative : RelTime
  have_relative : Bool
  sse_uptodate : Bool
deriving DecidableEq

/-- The zone name reached through one->tz_info->name.  The C code only
dereferences tz_info on paths where the zone is a named-identifier zone,
which by the data-model invariant always carries a table; a missing table
is mapped to the empty name. -/
def tzName (t : Time) : String :=
  match t.tz_info with
  | some info => info.name
  | none => ""

def SECS_PER_DAY : Int := 86400

def SECS_PER_HOUR : Int := 3600

/-- do_range_limit from the source: shifts *a into [start, finish) in steps
of adj, carrying the number of steps into *b.  The two C statements of each
branch read the incoming *a; the second if reads the *a updated by the
first.  C signed division truncates toward zero, hence Int.tdiv. -/
def do_range_limit (start finish adj : Int) (a b : Int) : Int × Int :=
  let p : Int × Int :=
    if a < start then
      (a + adj * (Int.tdiv (start - a - 1) adj + 1),
       b - (Int.tdiv (start - a - 1) adj + 1))
    else (a, b)
  if p.1 ≥ finish then
    (p.1 - adj * Int.tdiv p.1 adj, p.2 + Int.tdiv p.1 adj)
  else p

/-- The condition under which sort_old_to_new compares by calendar fields:
both instants are ZONETYPE_ID times with the same TZID. -/
def bothIdSameName (one two : Time) : Prop :=
  one.zone_type = ZoneType.idZone ∧ two.zone_type = ZoneType.idZone ∧
    tzName one = tzName two

instance (one two : Time) : Decidable (bothIdSameName one two) := by
  unfold bothIdSameName; infer_instance

/-- The field comparison of sort_old_to_new, transcribed clause by clause:
one is strictly greater than two on the first non-equal calendar field. -/
def fieldLater (one two : Time) : Prop :=
  (one.y > two.y) ∨
  (one.y = two.y ∧ one.m > two.m) ∨
  (one.y = two.y ∧ one.m = two.m ∧ one.d > two.d) ∨
  (one.y = two.y ∧ one.m = two.m ∧ one.d = two.d ∧ one.h > two.h) ∨
  (one.y = two.y ∧ one.m = two.m ∧ one.d = two.d ∧ one.h = two.h ∧
    one.i > two.i) ∨
  (one.y = two.y ∧ one.m = two.m ∧ one.d = two.d ∧ one.h = two.h ∧
    one.i = two.i ∧ one.s > two.s) ∨
  (one.y = two.y ∧ one.m = two.m ∧ one.d = two.d ∧ one.h = two.h ∧
    one.i = two.i ∧ one.s = two.s ∧ one.us > two.us)

instance (one two : Time) : Decidable (fieldLater one two) := by
  unfold fieldLater; infer_instance

/-- The epoch comparison of sort_old_to_new: one is strictly later than two
by epoch seconds, with microseconds as tie-break. -/
def sseLater (one two : Time) : Prop :=
  one.sse > two.sse ∨ (one.sse = two.sse ∧ one.us > two.us)

instance (one two : Time) : Decidable (sseLater one two) := by
  unfold sseLater; infer_instance

/-- sort_old_to_new from the source: returns the possibly swapped pair of
instants together with the invert value.  swap_times sets rt->invert to 1
on a swap; otherwise the incoming invert value is kept.  Both callers pass
a freshly constructed interval whose invert is 0. -/
def sort_old_to_new (one two : Time) (invert : Int) : Time × Time × Int :=
  if bothIdSameName one two then
    if fieldLater one two then (two, one, 1) else (one, two, invert)
  else
    if sseLater one two then (two, one, 1) else (one, two, invert)

/-- Modelled from the spec: timelib_same_timezone is external to this
source file.  Two instants resolve to the same effective timezone when
their zone descriptors have the same kind and, for named-identifier zones,
the same zone name, otherwise the same UTC offset. -/
def timelib_same_timezone (one two : Time) : Bool :=
  if one.zone_type = two.zone_type then
    match one.zone_type with
    | ZoneType.idZone => tzName one = tzName two
    | _ => one.z = two.z
  else false

/-- Modelled from the spec: timelib_time_compare is external to this
source file.  Chronological comparison of two instants: by epoch seconds,
with microseconds as tie-break; negative when the first is earlier. -/
def timelib_time_compare (one two : Time) : Int :=
  if one.sse < two.sse then -1
  else if two.sse < one.sse then 1
  else if one.us < two.us then -1
  else if two.us < one.us then 1
  else 0

/-- Modelled from the spec: timelib_hmsf_to_decimal_hour is external to
this source file.  Converts an instant's time of day to a decimal-hour
value including minutes, seconds and microseconds. -/
def timelib_hmsf_to_decimal_hour (h i s us : Int) : ℚ :=
  (h : ℚ) + (i : ℚ) / 60 + (s : ℚ) / 3600 + (us : ℚ) / 3600000000

/-- Modelled from the spec: timelib_epoch_days_from_time is external to
this source file.  The epoch-day number of the instant's calendar date
(days since 1970-01-01, proleptic Gregorian civil-to-days algorithm). -/
def timelib_epoch_days_from_time (t : Time) : Int :=
  let y : Int := if t.m ≤ 2 then t.y - 1 else t.y
  let era : Int := Int.fdiv y 400
  let yoe : Int := y - era * 400
  let mp : Int := Int.emod (t.m + 9) 12
  let doy : Int := Int.tdiv (153 * mp + 2) 5 + t.d - 1
  let doe : Int := yoe * 365 + Int.tdiv yoe 4 - Int.tdiv yoe 100 + doy
  era * 146097 + doe - 719468

/-- timelib_diff_days from the source: the caller-visible total-day count.
Same effective timezone: absolute difference of epoch-day numbers, minus
one when the later instant's decimal-hour time of day is strictly below
the earlier one's and the count is positive.  Otherwise the truncated
quotient of the absolute epoch-second difference by 86400. -/
def timelib_diff_days (one two : Time) : Int :=
  if timelib_same_timezone one two then
    let earliest := if timelib_time_compare one two < 0 then one else two
    let latest := if timelib_time_compare one two < 0 then two else one
    let earliest_time :=
      timelib_hmsf_to_decimal_hour earliest.h earliest.i earliest.s earliest.us
    let latest_time :=
      timelib_hmsf_to_decimal_hour latest.h latest.i latest.s latest.us
    let days :=
      |timelib_epoch_days_from_time one - timelib_epoch_days_from_time two|
    if latest_time < earliest_time ∧ days > 0 then days - 1 else days
  else
    Int.tdiv |one.sse - two.sse| 86400

/-- Modelled from the spec: timelib_get_time_zone_offset_info is external
to this source file.  Looks up the offset and transition boundary in
effect at the given epoch second: the entry of the table (sorted by
transition time, ascending) with the greatest transition time at or before
the query; reports not-found when the query predates all known
transitions. -/
def timelib_get_time_zone_offset_info (ts : Int) (tz : TzInfo) :
    Option (Int × Int) :=
  tz.trans.foldl
    (fun acc tr => if tr.1 ≤ ts then some (tr.2.1, tr.1) else acc) none

/-- Modelled from the spec: the days-per-month table of the calendar
collaborator, for month indices 1..12 (other indices never occur after the
month wrap; they default to 31). -/
def daysOfMonth (leap : Bool) (month : Int) : Int :=
  if month = 2 then (if leap then 29 else 28)
  else if month = 4 ∨ month = 6 ∨ month = 9 ∨ month = 11 then 30
  else 31

/-- Modelled from the spec: the leap-year test of the calendar
collaborator (a zero C remainder agrees with a zero Euclidean
remainder). -/
def timelib_is_leap (y : Int) : Bool :=
  Int.emod y 4 == 0 && (Int.emod y 100 != 0 || Int.emod y 400 == 0)

/-- Modelled from the spec: the forward (invert = 0) day-to-month borrow
loop of the normalizer.  While the day count is negative, step to the
month before the current one (wrapping into the previous year below
month 1) and add that month's length to the day count, decrementing the
interval's month.  The loop is expressed with a fuel argument; the caller
passes fuel that can never run out because every pass adds at least 28
days (see the fuel-irrelevance lemma). -/
def borrowFwd : Nat → Int → Int → Int → Int → Int × Int
  | 0, _year, _month, m, d => (m, d)
  | fuel + 1, year, month, m, d =>
    if d < 0 then
      borrowFwd fuel
        (if month - 1 < 1 then year - 1 else year)
        (if month - 1 < 1 then month - 1 + 12 else month - 1)
        (m - 1)
        (d + daysOfMonth
          (timelib_is_leap (if month - 1 < 1 then year - 1 else year))
          (if month - 1 < 1 then month - 1 + 12 else month - 1))
    else (m, d)

/-- Modelled from the spec: the backward (invert = 1) day-to-month borrow
loop of the normalizer.  While the day count is negative, add the current
month's length to the day count, decrement the interval's month, and step
to the month after the current one (wrapping into the next year above
month 12). -/
def borrowInv : Nat → Int → Int → Int → Int → Int × Int
  | 0, _year, _month, m, d => (m, d)
  | fuel + 1, year, month, m, d =>
    if d < 0 then
      borrowInv fuel
        (if month + 1 > 12 then year + 1 else year)
        (if month + 1 > 12 then month + 1 - 12 else month + 1)
        (m - 1)
        (d + daysOfMonth (timelib_is_leap year) month)
    else (m, d)

/-- Modelled from the spec: the day-to-month carry of the normalizer,
against the base instant's calendar month and year (wrapped into range
first) and directed by the interval's invert flag.  Returns the adjusted
(month, day) pair of the interval; the loop never touches the year delta.
The fuel (0 - d).toNat is exact: each pass adds at least 28 days, and
once the day count is nonnegative both loops return immediately. -/
def do_range_limit_days_relative (base_y base_m m d invert : Int) :
    Int × Int :=
  let pb := do_range_limit 1 13 12 base_m base_y
  if invert = 0 then borrowFwd (0 - d).toNat pb.2 pb.1 m d
  else borrowInv (0 - d).toNat pb.2 pb.1 m d

/-- The microsecond-into-second carry of normalization. -/
def carryUs (rt : RelTime) : Int × Int :=
  do_range_limit 0 1000000 1000000 rt.us rt.s

/-- The second-into-minute carry of normalization. -/
def carryS (rt : RelTime) : Int × Int :=
  do_range_limit 0 60 60 (carryUs rt).2 rt.i

/-- The minute-into-hour carry of normalization. -/
def carryI (rt : RelTime) : Int × Int :=
  do_range_limit 0 60 60 (carryS rt).2 rt.h

/-- The hour-into-day carry of normalization. -/
def carryH (rt : RelTime) : Int × Int :=
  do_range_limit 0 24 24 (carryI rt).2 rt.d

/-- The interval's day component after the microsecond, second, minute
and hour carries: the value the day-to-month borrow tests. -/
def carriedDay (rt : RelTime) : Int := (carryH rt).2

/-- Modelled from the spec: timelib_do_rel_normalize is external to this
source file.  Carries field overflow and underflow through the interval in
priority order using the range-reduction primitive of this file:
microseconds into seconds, seconds into minutes, minutes into hours, hours
into days, months into years, then the day-to-month borrow against the
base instant (normalize_fields receives the instant and section 4.3 step 4
selects it), directed by the interval's invert flag, and a final
month-into-year carry.  The in-place wrap of the base's own month field,
a side effect on the base in the original, does not affect the interval
and is kept local here. -/
def timelib_do_rel_normalize (base : Time) (rt : RelTime) : RelTime :=
  let p5 := do_range_limit 0 12 12 rt.m rt.y
  let md := do_range_limit_days_relative base.y base.m p5.1 (carriedDay rt)
              rt.invert
  let p6 := do_range_limit 0 12 12 md.1 p5.2
  { rt with y := p6.2, m := p6.1, d := md.2, h := (carryH rt).1,
            i := (carryI rt).1, s := (carryS rt).1, us := (carryUs rt).1 }

/-- The pairwise field subtraction of timelib_diff_with_tzid, plus the
day count: rt->y..rt->us become two.field - one.field and rt->days is
timelib_diff_days(one, two). -/
def rawFieldSub (one two : Time) (rt : RelTime) : RelTime :=
  { rt with
      y := two.y - one.y, m := two.m - one.m, d := two.d - one.d,
      h := two.h - one.h, i := two.i - one.i, s := two.s - one.s,
      us := two.us - one.us,
      days := timelib_diff_days one two }

/-- The transition-boundary fall-back block of timelib_diff_with_tzid:
when two->sse < one->sse despite the field ordering, the hour, minute and
second are recomputed from llabs(rt->i * 60 + rt->s - dst_corr) and the
invert flag becomes 1 - invert. -/
def fallBackFlip (one two : Time) (rt : RelTime) : RelTime :=
  if two.sse < one.sse then
    let dst_corr := two.z - one.z
    let flipped := |rt.i * 60 + rt.s - dst_corr|
    let h' := Int.tdiv flipped SECS_PER_HOUR
    { rt with
        h := h',
        i := Int.tdiv (flipped - h' * SECS_PER_HOUR) 60,
        s := Int.tmod flipped 60,
        invert := 1 - rt.invert }
  else rt

/-- The three-way DST correction block of timelib_diff_with_tzid (the code
after timelib_do_rel_normalize): fall-back, spring-forward, and the
multi-day embedded-transition case.  The source does not test tz_info for
null in the multi-day branch (an ID-zone instant always carries a table);
a missing table is treated there like a failed lookup. -/
def dstAdjust (one two : Time) (rt : RelTime) : RelTime :=
  let dst_corr := two.z - one.z
  let dst_h_corr := Int.tdiv dst_corr 3600
  let dst_m_corr := Int.tdiv (Int.tmod dst_corr 3600) 60
  if one.dst = 1 ∧ two.dst = 0 then
    match two.tz_info with
    | some _ =>
      if two.sse - one.sse + dst_corr < SECS_PER_DAY then
        { rt with h := rt.h - dst_h_corr, i := rt.i - dst_m_corr }
      else rt
    | none => rt
  else if one.dst = 0 ∧ two.dst = 1 then
    match two.tz_info with
    | some tz =>
      match timelib_get_time_zone_offset_info two.sse tz with
      | some (_trans_offset, trans_transition_time) =>
        if (¬ (one.sse + SECS_PER_DAY > trans_transition_time ∧
               one.sse + SECS_PER_DAY ≤ trans_transition_time + dst_corr)) ∧
           two.sse ≥ trans_transition_time ∧
           Int.tmod (two.sse - one.sse + dst_corr) SECS_PER_DAY >
             two.sse - trans_transition_time then
          { rt with h := rt.h - dst_h_corr, i := rt.i - dst_m_corr }
        else rt
      | none => rt
    | none => rt
  else if two.sse - one.sse ≥ SECS_PER_DAY then
    match two.tz_info with
    | some tz =>
      match timelib_get_time_zone_offset_info (two.sse - two.z) tz with
      | some (trans_offset, trans_transition_time) =>
        let corr := one.z - trans_offset
        if two.sse ≥ trans_transition_time - corr ∧
           two.sse < trans_transition_time then
          { rt with d := rt.d - 1, h := 24 }
        else rt
      | none => rt
    | none => rt
  else rt

/-- The body of timelib_diff_with_tzid after sort_old_to_new: field
subtraction and day count, the transition fall-back recomputation, the
normalization of the interval against the post-inversion later instant. -/
def preAdjust (one two : Time) (inv : Int) : RelTime :=
  let rt0 := rawFieldSub one two { zeroRel with invert := inv }
  let rt1 := fallBackFlip one two rt0
  timelib_do_rel_normalize (if rt1.invert ≠ 0 then one else two) rt1

/-- timelib_diff_with_tzid after sort_old_to_new: preAdjust followed by
the DST correction block. -/
def diffWithTzidSorted (one two : Time) (inv : Int) : RelTime :=
  dstAdjust one two (preAdjust one two inv)

/-- timelib_diff_with_tzid from the source: construct a zero interval with
invert 0, sort the operands old to new, then run the correction
pipeline. -/
def timelib_diff_with_tzid (one two : Time) : RelTime :=
  let st := sort_old_to_new one two 0
  diffWithTzidSorted st.1 st.2.1 st.2.2

/-- The raw subtraction of the no-shared-named-zone body of timelib_diff
after sort_old_to_new: pairwise field subtraction where the hour
additionally absorbs each side's dst flag when that side is not a
named-identifier zone, and the seconds absorb the raw offset
difference. -/
def fallbackRel (one two : Time) (inv : Int) : RelTime :=
  let h0 := two.h - one.h
  let h1 := if one.zone_type ≠ ZoneType.idZone then h0 + one.dst else h0
  let h2 := if two.zone_type ≠ ZoneType.idZone then h1 - two.dst else h1
  { zeroRel with
      invert := inv,
      y := two.y - one.y, m := two.m - one.m, d := two.d - one.d,
      h := h2, i := two.i - one.i,
      s := two.s - one.s - two.z + one.z,
      us := two.us - one.us,
      days := timelib_diff_days one two }

/-- The normalization step of the cross-zone diff, applied to the raw
subtraction against the post-inversion base instant. -/
def diffFallback (one two : Time) (inv : Int) : RelTime :=
  let rt := fallbackRel one two inv
  timelib_do_rel_normalize (if rt.invert ≠ 0 then one else two) rt

/-- timelib_diff from the source: dispatch to timelib_diff_with_tzid when
both instants are named-identifier times with the same TZID, otherwise
sort and run the cross-zone subtraction. -/
def timelib_diff (one two : Time) : RelTime :=
  if bothIdSameName one two then
    timelib_diff_with_tzid one two
  else
    let st := sort_old_to_new one two 0
    diffFallback st.1 st.2.1 st.2.2

/-- The relative delta that timelib_add stamps onto the clone: the whole
interval verbatim (memcpy) when a weekday-relative or special-relative
mode is present, otherwise the zeroed struct with the numeric fields
multiplied by the bias (-1 when invert is set). -/
def add_relative_delta (iv : RelTime) : RelTime :=
  if iv.have_weekday_relative || iv.have_special_relative then iv
  else
    let bias : Int := if iv.invert ≠ 0 then -1 else 1
    { zeroRel with
        y := iv.y * bias, m := iv.m * bias, d := iv.d * bias,
        h := iv.h * bias, i := iv.i * bias, s := iv.s * bias,
        us := iv.us * bias }

/-- The relative delta that timelib_sub stamps onto the clone: always the
zeroed struct with the numeric fields negated after the bias (no
weekday-relative or special-relative branch exists in timelib_sub). -/
def sub_relative_delta (iv : RelTime) : RelTime :=
  let bias : Int := if iv.invert ≠ 0 then -1 else 1
  { zeroRel with
      y := 0 - iv.y * bias, m := 0 - iv.m * bias, d := 0 - iv.d * bias,
      h := 0 - iv.h * bias, i := 0 - iv.i * bias, s := 0 - iv.s * bias,
      us := 0 - iv.us * bias }

/-- timelib_add from the source, with the external epoch round-trip
(timelib_update_ts, timelib_update_from_sse) taken as function
parameters: clone, stamp the relative delta, mark the clone as needing
recomputation, run the round-trip, clear the transient flag. -/
def timelib_add (upd_ts upd_from_sse : Time → Time) (old_time : Time)
    (iv : RelTime) : Time :=
  let t0 := { old_time with
                relative := add_relative_delta iv,
                have_relative := true, sse_uptodate := false }
  let t1 := upd_from_sse (upd_ts t0)
  { t1 with have_relative := false }

/-- timelib_sub from the source, with the external epoch round-trip taken
as function parameters. -/
def timelib_sub (upd_ts upd_from_sse : Time → Time) (old_time : Time)
    (iv : RelTime) : Time :=
  let t0 := { old_time with
                relative := sub_relative_delta iv,
                have_relative := true, sse_uptodate := false }
  let t1 := upd_from_sse (upd_ts t0)
  { t1 with have_relative := false }

/-- The spec's description of the same-named-zone ordering: calendar fields
in strict priority order year, month, day, hour, minute, second,
microsecond; the first non-equal field decides that the first instant is
strictly later. -/
def specFieldLater (a b : Time) : Prop :=
  b.y < a.y ∨ (b.y = a.y ∧
    (b.m < a.m ∨ (b.m = a.m ∧
      (b.d < a.d ∨ (b.d = a.d ∧
        (b.h < a.h ∨ (b.h = a.h ∧
          (b.i < a.i ∨ (b.i = a.i ∧
            (b.s < a.s ∨ (b.s = a.s ∧ b.us < a.us)))))))))))

instance (a b : Time) : Decidable (specFieldLater a b) := by
  unfold specFieldLater; infer_instance

/-- The spec's description of the epoch ordering: epoch seconds with
microseconds as tie-break. -/
def specSseLater (a b : Time) : Prop :=
  b.sse < a.sse ∨ (b.sse = a.sse ∧ b.us < a.us)

instance (a b : Time) : Decidable (specSseLater a b) := by
  unfold specSseLater; infer_instance

/-- A concrete fall-back instant pair: 01:00 EDT and the same wall time
one hour of physical time later in EST, in the same named zone. -/
def fbOne : Time :=
  { y := 2010, m := 11, d := 7, h := 1, i := 0, s := 0, us := 0,
    sse := 0, z := -14400, dst := 1, zone_type := ZoneType.idZone,
    tz_info := some { name := "America/New_York", trans := [] },
    relative := zeroRel, have_relative := false, sse_uptodate := false }

def fbTwo : Time :=
  { y := 2010, m := 11, d := 7, h := 1, i := 0, s := 0, us := 0,
    sse := 3600, z := -18000, dst := 0, zone_type := ZoneType.idZone,
    tz_info := some { name := "America/New_York", trans := [] },
    relative := zeroRel, have_relative := false, sse_uptodate := false }

/-- A concrete multi-day pair in a named zone whose transition table is
empty, so every lookup fails. -/
def skOne : Time :=
  { y := 2010, m := 1, d := 1, h := 0, i := 0, s := 0, us := 0,
    sse := 0, z := -18000, dst := 0, zone_type := ZoneType.idZone,
    tz_info := some { name := "America/New_York", trans := [] },
    relative := zeroRel, have_relative := false, sse_uptodate := false }

def skTwo : Time :=
  { y := 2010, m := 1, d := 3, h := 0, i := 0, s := 0, us := 0,
    sse := 172800, z := -18000, dst := 0, zone_type := ZoneType.idZone,
    tz_info := some { name := "America/New_York", trans := [] },
    relative := zeroRel, have_relative := false, sse_uptodate := false }

/-- A concrete instant used by the add/sub claims. -/
def cexTime : Time :=
  { y := 2023, m := 1, d := 1, h := 0, i := 0, s := 0, us := 0,
    sse := 0, z := 0, dst := 0, zone_type := ZoneType.offsetZone,
    tz_info := none, relative := zeroRel, have_relative := false,
    sse_uptodate := true }

/-- A concrete interval carrying a special-relative mode. -/
def cexIv : RelTime :=
  { zeroRel with y := 1, special_type := 5, have_special_relative := true }

/-- A concrete plain numeric interval with the invert flag set. -/
def plainIv : RelTime := { zeroRel with y := 2, h := 3, invert := 1 }

/-- Replaces the transition table of an instant's zone descriptor, keeping
everything else (including the zone name) unchanged. -/
def setTrans (t : Time) (tr : List (Int × Int × Int)) : Time :=
  { t with tz_info := t.tz_info.map (fun info => { info with trans := tr }) }

/-- A second concrete instant, two hours, one minute and five seconds
after cexTime, in a different (abbreviation) zone. -/
def czB : Time :=
  { cexTime with sse := 7265, h := 2, i := 1, s := 5,
                 zone_type := ZoneType.abbrZone }

/-- The magnitude fields of an interval (everything the antisymmetry claim
compares): year, month, day, hour, minute, second, microsecond, days. -/
def magOf (r : RelTime) : List Int :=
  [r.y, r.m, r.d, r.h, r.i, r.s, r.us, r.days]

/-- Replaces only the invert flag of an interval. -/
def setInvRel (r : RelTime) (x : Int) : RelTime := { r with invert := x }

/-- The swap condition of sort_old_to_new: the comparison in effect for
the pair deems the first operand strictly later. -/
def swapCond (a b : Time) : Prop :=
  if bothIdSameName a b then fieldLater a b else sseLater a b

instance (a b : Time) : Decidable (swapCond a b) := by
  unfold swapCond; infer_instance

/-- Two fixed-offset instants with equal epoch values but different year
fields: the epoch comparison ties without swapping in either call. -/
def cxA : Time := { cexTime with y := 2000 }

def cxB : Time := { cexTime with y := 2001 }

/-- A strictly later copy of cexTime by epoch seconds. -/
def cxLater : Time := { cexTime with sse := 100 }

/-- The no-borrow side condition on a pair of instants: on the path diff
takes for the pair, the working interval fed to normalization has a
nonnegative day component after the sub-day carries, so the normalizer's
day-to-month borrow is not exercised.  Stated at invert 0; the carried
day value does not depend on the invert flag. -/
def noDayBorrow (a b : Time) : Prop :=
  (bothIdSameName a b →
    0 ≤ carriedDay (fallBackFlip (sort_old_to_new a b 0).1
          (sort_old_to_new a b 0).2.1
          (rawFieldSub (sort_old_to_new a b 0).1 (sort_old_to_new a b 0).2.1
            zeroRel))) ∧
  (¬ bothIdSameName a b →
    0 ≤ carriedDay (fallbackRel (sort_old_to_new a b 0).1
          (sort_old_to_new a b 0).2.1 0))

instance (a b : Time) : Decidable (noDayBorrow a b) := by
  unfold noDayBorrow; infer_instance

/-- A strictly field-ordered same-named-zone pair whose raw day
difference is negative (1 - 31 = -30), so normalization borrows from
months: 2021-01-31 and 2021-03-01, 29 days apart. -/
def mbA : Time :=
  { y := 2021, m := 1, d := 31, h := 0, i := 0, s := 0, us := 0,
    sse := 0, z := 0, dst := 0, zone_type := ZoneType.idZone,
    tz_info := some { name := "UTC", trans := [] },
    relative := zeroRel, have_relative := false, sse_uptodate := true }

def mbB : Time := { mbA with m := 3, d := 1, sse := 2505600 }

/-- C5: with arguments (0, 1000000, 1000000), do_range_limit leaves the
microsecond value in [0, 1000000), preserves the total quantity
s * 1000000 + us, maps the input us = -500000 to us = 500000 with the
second decremented by 1 (floor-division semantics on negative inputs),
and leaves inputs already in range unchanged. -/
theorem c5_microsecond_range_reduction (us s : Int) :
    (0 ≤ (do_range_limit 0 1000000 1000000 us s).1 ∧
      (do_range_limit 0 1000000 1000000 us s).1 < 1000000) ∧
    ((do_range_limit 0 1000000 1000000 us s).2 * 1000000 +
      (do_range_limit 0 1000000 1000000 us s).1 = s * 1000000 + us) ∧
    (us = -500000 →
      (do_range_limit 0 1000000 1000000 us s).1 = 500000 ∧
      (do_range_limit 0 1000000 1000000 us s).2 = s - 1) ∧
    (0 ≤ us ∧ us < 1000000 →
      (do_range_limit 0 1000000 1000000 us s).1 = us ∧
      (do_range_limit 0 1000000 1000000 us s).2 = s) := by
  unfold do_range_limit
  by_cases h1 : us < 0
  · have hq : Int.tdiv (0 - us - 1) 1000000 = (0 - us - 1) / 1000000 :=
      Int.tdiv_eq_ediv (by omega) (by norm_num)
    simp only [if_pos h1, hq]
    have h2 : ¬ (us + 1000000 * ((0 - us - 1) / 1000000 + 1) ≥ 1000000) := by
      omega
    simp only [if_neg h2]
    refine ⟨⟨by omega, by omega⟩, by omega, fun hus => ⟨by omega, by omega⟩,
      fun hin => absurd h1 (by omega)⟩
  · simp only [if_neg h1]
    by_cases h2 : us ≥ 1000000
    · have hq : Int.tdiv us 1000000 = us / 1000000 :=
        Int.tdiv_eq_ediv (by omega) (by norm_num)
      simp only [if_pos h2, hq]
      refine ⟨⟨by omega, by omega⟩, by omega,
        fun hus => by omega, fun hin => by omega⟩
    · simp only [if_neg h2]
      exact ⟨by omega, trivial, fun hus => absurd hus (by omega),
        fun hin => ⟨trivial, trivial⟩⟩

/-- Witness for C5 at the input named by the claim, us = -500000. -/
theorem c5_witness :
    (0 ≤ (do_range_limit 0 1000000 1000000 (-500000) 7).1 ∧
      (do_range_limit 0 1000000 1000000 (-500000) 7).1 < 1000000) ∧
    ((do_range_limit 0 1000000 1000000 (-500000) 7).2 * 1000000 +
      (do_range_limit 0 1000000 1000000 (-500000) 7).1 =
        7 * 1000000 + (-500000)) ∧
    ((-500000 : Int) = -500000 →
      (do_range_limit 0 1000000 1000000 (-500000) 7).1 = 500000 ∧
      (do_range_limit 0 1000000 1000000 (-500000) 7).2 = 7 - 1) ∧
    (0 ≤ (-500000 : Int) ∧ (-500000 : Int) < 1000000 →
      (do_range_limit 0 1000000 1000000 (-500000) 7).1 = -500000 ∧
      (do_range_limit 0 1000000 1000000 (-500000) 7).2 = 7) :=
  c5_microsecond_range_reduction (-500000) 7

set_option maxHeartbeats 1600000 in
/-- C7: diff's operand ordering uses the calendar fields in strict
priority order exactly when both instants are named-identifier times with
the same zone name, and epoch seconds with microsecond tie-break
otherwise; the operands are swapped with invert set to 1 exactly when the
first argument is strictly later under the applicable comparison, and
otherwise (equal instants included) the order is kept with invert 0. -/
theorem c7_ordering_and_inversion (a b : Time) :
    sort_old_to_new a b 0 =
      if bothIdSameName a b then
        (if specFieldLater a b then (b, a, 1) else (a, b, 0))
      else
        (if specSseLater a b then (b, a, 1) else (a, b, 0)) := by
  have hf : fieldLater a b ↔ specFieldLater a b := by
    unfold fieldLater specFieldLater; omega
  have hs : sseLater a b ↔ specSseLater a b := by
    unfold sseLater specSseLater; omega
  unfold sort_old_to_new
  simp only [hf, hs]

/-- C4: the days field of a diff is the absolute difference of epoch-day
numbers, decremented by one exactly when the later instant's decimal-hour
time of day is strictly below the earlier instant's and the count is
positive, when the two instants resolve to the same effective timezone;
otherwise it is the floor of the absolute epoch-second difference divided
by 86400. -/
theorem c4_day_count (one two : Time) :
    timelib_diff_days one two =
      if timelib_same_timezone one two then
        (let later := if timelib_time_compare one two < 0 then two else one
         let earlier := if timelib_time_compare one two < 0 then one else two
         let dd := |timelib_epoch_days_from_time two -
                      timelib_epoch_days_from_time one|
         if timelib_hmsf_to_decimal_hour later.h later.i later.s later.us <
              timelib_hmsf_to_decimal_hour earlier.h earlier.i earlier.s
                earlier.us ∧ 0 < dd
         then dd - 1 else dd)
      else Int.tdiv |two.sse - one.sse| 86400 := by
  unfold timelib_diff_days
  simp only [abs_sub_comm, gt_iff_lt]

/-- C3: in the same-named-zone diff, whenever the sorted operands are out
of epoch order (two->sse < one->sse), the hour, minute and second of the
working interval are recomputed from scratch as the hour/minute/second
decomposition of the absolute value of i * 60 + s - (two.z - one.z), and
the invert flag is flipped from its current value. -/
theorem c3_transition_recompute (one two : Time) (rt : RelTime)
    (h : two.sse < one.sse) :
    fallBackFlip one two rt =
      { rt with
          h := Int.tdiv |rt.i * 60 + rt.s - (two.z - one.z)| 3600,
          i := Int.tdiv (Int.tmod |rt.i * 60 + rt.s - (two.z - one.z)| 3600)
                 60,
          s := Int.tmod |rt.i * 60 + rt.s - (two.z - one.z)| 60,
          invert := 1 - rt.invert } := by
  have key : ∀ f : Int, f - Int.tdiv f 3600 * 3600 = Int.tmod f 3600 := by
    intro f
    have h1 := Int.tdiv_add_tmod f 3600
    omega
  unfold fallBackFlip
  rw [if_pos h]
  simp only [SECS_PER_HOUR, key]

/-- Witness for C3 at a concrete out-of-order pair. -/
theorem c3_witness :
    fallBackFlip
        { y := 2010, m := 11, d := 7, h := 1, i := 30, s := 0, us := 0,
          sse := 100, z := -18000, dst := 0, zone_type := ZoneType.idZone,
          tz_info := none, relative := zeroRel, have_relative := false,
          sse_uptodate := false }
        { y := 2010, m := 11, d := 7, h := 1, i := 30, s := 0, us := 0,
          sse := 40, z := -14400, dst := 1, zone_type := ZoneType.idZone,
          tz_info := none, relative := zeroRel, have_relative := false,
          sse_uptodate := false }
        { zeroRel with i := 0, s := 0 } =
      { zeroRel with
          h := Int.tdiv |(0 : Int) * 60 + 0 - (-14400 - -18000)| 3600,
          i := Int.tdiv
                 (Int.tmod |(0 : Int) * 60 + 0 - (-14400 - -18000)| 3600) 60,
          s := Int.tmod |(0 : Int) * 60 + 0 - (-14400 - -18000)| 60,
          invert := 1 - zeroRel.invert } :=
  c3_transition_recompute _ _ _ (by decide)

/-- C2: in the same-named-zone diff with one->dst = 1, two->dst = 0 and a
zone table on two, the fall-back correction applies exactly when the
elapsed seconds plus the offset delta are under one day: the normalized
result's hour drops by (two.z - one.z) / 3600 and its minute by
((two.z - one.z) mod 3600) / 60; otherwise no correction is applied. -/
theorem c2_fall_back_correction (one two : Time) (tz : TzInfo) (inv : Int)
    (h1 : one.dst = 1) (h2 : two.dst = 0) (h3 : two.tz_info = some tz) :
    (two.sse - one.sse + (two.z - one.z) < 86400 →
      diffWithTzidSorted one two inv =
        { preAdjust one two inv with
            h := (preAdjust one two inv).h - Int.tdiv (two.z - one.z) 3600,
            i := (preAdjust one two inv).i -
                   Int.tdiv (Int.tmod (two.z - one.z) 3600) 60 }) ∧
    (two.sse - one.sse + (two.z - one.z) ≥ 86400 →
      diffWithTzidSorted one two inv = preAdjust one two inv) := by
  constructor <;> intro hc <;>
    (unfold diffWithTzidSorted dstAdjust;
     rw [h3];
     simp only [h1, h2, SECS_PER_DAY])
  · rw [if_pos ⟨trivial, trivial⟩, if_pos hc]
  · rw [if_pos ⟨trivial, trivial⟩, if_neg (by omega)]

/-- Witness for C2 at the concrete fall-back pair. -/
theorem c2_witness :
    (fbTwo.sse - fbOne.sse + (fbTwo.z - fbOne.z) < 86400 →
      diffWithTzidSorted fbOne fbTwo 0 =
        { preAdjust fbOne fbTwo 0 with
            h := (preAdjust fbOne fbTwo 0).h -
                   Int.tdiv (fbTwo.z - fbOne.z) 3600,
            i := (preAdjust fbOne fbTwo 0).i -
                   Int.tdiv (Int.tmod (fbTwo.z - fbOne.z) 3600) 60 }) ∧
    (fbTwo.sse - fbOne.sse + (fbTwo.z - fbOne.z) ≥ 86400 →
      diffWithTzidSorted fbOne fbTwo 0 = preAdjust fbOne fbTwo 0) :=
  c2_fall_back_correction fbOne fbTwo
    { name := "America/New_York", trans := [] } 0 rfl rfl rfl

/-- C8: in the same-named-zone diff, a failed transition lookup in the
spring-forward branch or in the multi-day branch skips the correction
entirely: the result is the normally constructed (normalized) interval,
with no substituted correction and no error. -/
theorem c8_lookup_failure_skips (one two : Time) (tz : TzInfo) (inv : Int)
    (h3 : two.tz_info = some tz) :
    (one.dst = 0 → two.dst = 1 →
      timelib_get_time_zone_offset_info two.sse tz = none →
      diffWithTzidSorted one two inv = preAdjust one two inv) ∧
    (¬ (one.dst = 1 ∧ two.dst = 0) → ¬ (one.dst = 0 ∧ two.dst = 1) →
      two.sse - one.sse ≥ 86400 →
      timelib_get_time_zone_offset_info (two.sse - two.z) tz = none →
      diffWithTzidSorted one two inv = preAdjust one two inv) := by
  constructor
  · intro ha hb hl
    unfold diffWithTzidSorted dstAdjust
    rw [h3]
    rw [if_neg (by omega), if_pos ⟨ha, hb⟩]
    simp only [hl]
  · intro hna hnb hge hl
    unfold diffWithTzidSorted dstAdjust
    rw [h3]
    rw [if_neg hna, if_neg hnb, if_pos (by
      show two.sse - one.sse ≥ SECS_PER_DAY
      unfold SECS_PER_DAY
      omega)]
    simp only [hl]

/-- Witness for C8 at the concrete pair: the multi-day branch's lookup
fails and the diff equals the uncorrected normalized interval. -/
theorem c8_witness :
    (skOne.dst = 0 → skTwo.dst = 1 →
      timelib_get_time_zone_offset_info skTwo.sse
          { name := "America/New_York", trans := [] } = none →
      diffWithTzidSorted skOne skTwo 0 = preAdjust skOne skTwo 0) ∧
    (¬ (skOne.dst = 1 ∧ skTwo.dst = 0) → ¬ (skOne.dst = 0 ∧ skTwo.dst = 1) →
      skTwo.sse - skOne.sse ≥ 86400 →
      timelib_get_time_zone_offset_info (skTwo.sse - skTwo.z)
          { name := "America/New_York", trans := [] } = none →
      diffWithTzidSorted skOne skTwo 0 = preAdjust skOne skTwo 0) :=
  c8_lookup_failure_skips skOne skTwo
    { name := "America/New_York", trans := [] } 0 rfl

/-- C6 is false as stated for the sub direction: timelib_sub never copies
a special-relative interval verbatim into the transient-delta slot (it has
no such branch); with an identity epoch round-trip the slot holds the
numeric delta, not the interval.  timelib_add does copy it verbatim. -/
theorem c6_counterexample :
    cexIv.have_special_relative = true ∧
    (timelib_add (fun t => t) (fun t => t) cexTime cexIv).relative = cexIv ∧
    (timelib_sub (fun t => t) (fun t => t) cexTime cexIv).relative ≠ cexIv := by
  decide

/-- C6 (amended): in absolute-mode application, timelib_add copies a
weekday-relative or special-relative interval verbatim into the clone's
transient-delta slot, and otherwise writes the numeric y/m/d/h/i/s/us
fields negated when the invert flag is set; timelib_sub always writes the
numeric fields, negated once more (double flip), regardless of any special
mode. -/
theorem c6_amended_delta (iv : RelTime) :
    ((iv.have_weekday_relative || iv.have_special_relative) = true →
      add_relative_delta iv = iv) ∧
    ((iv.have_weekday_relative || iv.have_special_relative) = false →
      add_relative_delta iv =
        { zeroRel with
            y := if iv.invert ≠ 0 then -iv.y else iv.y,
            m := if iv.invert ≠ 0 then -iv.m else iv.m,
            d := if iv.invert ≠ 0 then -iv.d else iv.d,
            h := if iv.invert ≠ 0 then -iv.h else iv.h,
            i := if iv.invert ≠ 0 then -iv.i else iv.i,
            s := if iv.invert ≠ 0 then -iv.s else iv.s,
            us := if iv.invert ≠ 0 then -iv.us else iv.us }) ∧
    (sub_relative_delta iv =
      { zeroRel with
          y := if iv.invert ≠ 0 then iv.y else -iv.y,
          m := if iv.invert ≠ 0 then iv.m else -iv.m,
          d := if iv.invert ≠ 0 then iv.d else -iv.d,
          h := if iv.invert ≠ 0 then iv.h else -iv.h,
          i := if iv.invert ≠ 0 then iv.i else -iv.i,
          s := if iv.invert ≠ 0 then iv.s else -iv.s,
          us := if iv.invert ≠ 0 then iv.us else -iv.us }) := by
  refine ⟨fun hsp => ?_, fun hsp => ?_, ?_⟩
  · unfold add_relative_delta
    rw [if_pos hsp]
  · unfold add_relative_delta
    rw [if_neg (by simp [hsp])]
    by_cases hi : iv.invert ≠ 0 <;>
      simp only [hi, if_pos, if_neg, if_true, if_false, ite_true, ite_false,
        mul_one, mul_neg_one, RelTime.mk.injEq] <;>
      simp
  · unfold sub_relative_delta
    by_cases hi : iv.invert ≠ 0 <;>
      simp only [hi, ite_true, ite_false, mul_one, mul_neg_one,
        RelTime.mk.injEq] <;>
      simp <;> omega

/-- Witness for C6 (amended) at the concrete special-relative interval. -/
theorem c6_witness :
    ((cexIv.have_weekday_relative || cexIv.have_special_relative) = true →
      add_relative_delta cexIv = cexIv) ∧
    ((cexIv.have_weekday_relative || cexIv.have_special_relative) = false →
      add_relative_delta cexIv =
        { zeroRel with
            y := if cexIv.invert ≠ 0 then -cexIv.y else cexIv.y,
            m := if cexIv.invert ≠ 0 then -cexIv.m else cexIv.m,
            d := if cexIv.invert ≠ 0 then -cexIv.d else cexIv.d,
            h := if cexIv.invert ≠ 0 then -cexIv.h else cexIv.h,
            i := if cexIv.invert ≠ 0 then -cexIv.i else cexIv.i,
            s := if cexIv.invert ≠ 0 then -cexIv.s else cexIv.s,
            us := if cexIv.invert ≠ 0 then -cexIv.us else cexIv.us }) ∧
    (sub_relative_delta cexIv =
      { zeroRel with
          y := if cexIv.invert ≠ 0 then cexIv.y else -cexIv.y,
          m := if cexIv.invert ≠ 0 then cexIv.m else -cexIv.m,
          d := if cexIv.invert ≠ 0 then cexIv.d else -cexIv.d,
          h := if cexIv.invert ≠ 0 then cexIv.h else -cexIv.h,
          i := if cexIv.invert ≠ 0 then cexIv.i else -cexIv.i,
          s := if cexIv.invert ≠ 0 then cexIv.s else -cexIv.s,
          us := if cexIv.invert ≠ 0 then cexIv.us else -cexIv.us }) :=
  c6_amended_delta cexIv

/-- C10: for intervals without weekday-relative or special-relative modes,
timelib_sub coincides with timelib_add on the interval with its invert
flag negated: both stamp the identical transient delta on the clone and
run the identical epoch round-trip. -/
theorem c10_sub_is_add_inverted (u v : Time → Time) (t : Time)
    (iv : RelTime) (h1 : iv.have_weekday_relative = false)
    (h2 : iv.have_special_relative = false) :
    timelib_sub u v t iv =
      timelib_add u v t { iv with invert := if iv.invert ≠ 0 then 0 else 1 } := by
  have key : sub_relative_delta iv =
      add_relative_delta { iv with invert := if iv.invert ≠ 0 then 0 else 1 } := by
    unfold sub_relative_delta add_relative_delta
    by_cases hi : iv.invert ≠ 0 <;>
      simp only [hi, ite_true, ite_false, h1, h2, Bool.or_self,
        Bool.false_eq_true, if_false, ne_eq, RelTime.mk.injEq] <;>
      simp <;> omega
  unfold timelib_sub timelib_add
  rw [key]

/-- Witness for C10 at a concrete instant and interval. -/
theorem c10_witness :
    timelib_sub (fun t => t) (fun t => t) cexTime plainIv =
      timelib_add (fun t => t) (fun t => t) cexTime
        { plainIv with invert := if plainIv.invert ≠ 0 then 0 else 1 } :=
  c10_sub_is_add_inverted (fun t => t) (fun t => t) cexTime plainIv rfl rfl

theorem tzName_setTrans (t : Time) (tr : List (Int × Int × Int)) :
    tzName (setTrans t tr) = tzName t := by
  unfold tzName setTrans
  cases htz : t.tz_info <;> simp [htz]

theorem same_timezone_setTrans (x y : Time) (t1 t2 : List (Int × Int × Int)) :
    timelib_same_timezone (setTrans x t1) (setTrans y t2) =
      timelib_same_timezone x y := by
  unfold timelib_same_timezone
  rw [tzName_setTrans, tzName_setTrans]
  rfl

theorem compare_setTrans (x y : Time) (t1 t2 : List (Int × Int × Int)) :
    timelib_time_compare (setTrans x t1) (setTrans y t2) =
      timelib_time_compare x y := rfl

theorem epoch_days_setTrans (x : Time) (t1 : List (Int × Int × Int)) :
    timelib_epoch_days_from_time (setTrans x t1) =
      timelib_epoch_days_from_time x := rfl

theorem diff_days_setTrans (x y : Time) (t1 t2 : List (Int × Int × Int)) :
    timelib_diff_days (setTrans x t1) (setTrans y t2) =
      timelib_diff_days x y := by
  unfold timelib_diff_days
  rw [same_timezone_setTrans, compare_setTrans, epoch_days_setTrans,
    epoch_days_setTrans]
  by_cases hcmp : timelib_time_compare x y < 0 <;>
    simp only [hcmp, if_true, if_false, ite_true, ite_false] <;> rfl

theorem norm_base_setTrans (x : Time) (t1 : List (Int × Int × Int))
    (r : RelTime) :
    timelib_do_rel_normalize (setTrans x t1) r =
      timelib_do_rel_normalize x r := rfl

theorem diffFallback_setTrans (x y : Time) (t1 t2 : List (Int × Int × Int))
    (inv : Int) :
    diffFallback (setTrans x t1) (setTrans y t2) inv = diffFallback x y inv := by
  unfold diffFallback fallbackRel
  rw [diff_days_setTrans]
  dsimp only []
  by_cases hi : inv ≠ 0
  · rw [if_pos hi, if_pos hi, norm_base_setTrans]
    rfl
  · rw [if_neg hi, if_neg hi, norm_base_setTrans]
    rfl

theorem bothIdSameName_setTrans (a b : Time) (t1 t2 : List (Int × Int × Int)) :
    bothIdSameName (setTrans a t1) (setTrans b t2) ↔ bothIdSameName a b := by
  unfold bothIdSameName
  rw [tzName_setTrans, tzName_setTrans]
  exact Iff.rfl

/-- C9: on the no-shared-named-zone path, diff sorts, subtracts fields
pairwise, folds each side's dst flag into the hour only when that side is
not a named-identifier zone, folds the raw offset difference into the
seconds as two.s - one.s - two.z + one.z, attaches the day count and
normalizes; and the result never consults a transition table: replacing
both tables leaves the result unchanged. -/
theorem c9_cross_zone (a b : Time) (tr1 tr2 : List (Int × Int × Int))
    (h : ¬ bothIdSameName a b) :
    (timelib_diff a b =
      (let st := sort_old_to_new a b 0
       timelib_do_rel_normalize (if st.2.2 ≠ 0 then st.1 else st.2.1)
         { zeroRel with
             invert := st.2.2,
             y := st.2.1.y - st.1.y, m := st.2.1.m - st.1.m,
             d := st.2.1.d - st.1.d,
             h := st.2.1.h - st.1.h +
                    (if st.1.zone_type ≠ ZoneType.idZone then st.1.dst
                     else 0) -
                    (if st.2.1.zone_type ≠ ZoneType.idZone then st.2.1.dst
                     else 0),
             i := st.2.1.i - st.1.i,
             s := st.2.1.s - st.1.s - st.2.1.z + st.1.z,
             us := st.2.1.us - st.1.us,
             days := timelib_diff_days st.1 st.2.1 })) ∧
    timelib_diff (setTrans a tr1) (setTrans b tr2) = timelib_diff a b := by
  constructor
  · unfold timelib_diff
    rw [if_neg h]
    unfold diffFallback fallbackRel
    by_cases hz1 : (sort_old_to_new a b 0).1.zone_type ≠ ZoneType.idZone <;>
      by_cases hz2 :
        (sort_old_to_new a b 0).2.1.zone_type ≠ ZoneType.idZone <;>
      simp [hz1, hz2]
  · have h' : ¬ bothIdSameName (setTrans a tr1) (setTrans b tr2) := by
      rw [bothIdSameName_setTrans]; exact h
    unfold timelib_diff
    rw [if_neg h, if_neg h']
    unfold sort_old_to_new
    rw [if_neg h, if_neg h']
    by_cases hss : sseLater a b
    · rw [if_pos hss,
        if_pos (show sseLater (setTrans a tr1) (setTrans b tr2) from hss)]
      exact diffFallback_setTrans b a tr2 tr1 1
    · rw [if_neg hss,
        if_neg (show ¬ sseLater (setTrans a tr1) (setTrans b tr2) from hss)]
      exact diffFallback_setTrans a b tr1 tr2 0

/-- Witness for C9 at a concrete cross-zone pair and concrete tables. -/
theorem c9_witness :
    (timelib_diff cexTime czB =
      (let st := sort_old_to_new cexTime czB 0
       timelib_do_rel_normalize (if st.2.2 ≠ 0 then st.1 else st.2.1)
         { zeroRel with
             invert := st.2.2,
             y := st.2.1.y - st.1.y, m := st.2.1.m - st.1.m,
             d := st.2.1.d - st.1.d,
             h := st.2.1.h - st.1.h +
                    (if st.1.zone_type ≠ ZoneType.idZone then st.1.dst
                     else 0) -
                    (if st.2.1.zone_type ≠ ZoneType.idZone then st.2.1.dst
                     else 0),
             i := st.2.1.i - st.1.i,
             s := st.2.1.s - st.1.s - st.2.1.z + st.1.z,
             us := st.2.1.us - st.1.us,
             days := timelib_diff_days st.1 st.2.1 })) ∧
    timelib_diff (setTrans cexTime [(0, 0, 0)]) (setTrans czB []) =
      timelib_diff cexTime czB :=
  c9_cross_zone cexTime czB [(0, 0, 0)] [] (by decide)

theorem flip_setInv (one two : Time) (r : RelTime) (x : Int) :
    fallBackFlip one two (setInvRel r x) =
      setInvRel (fallBackFlip one two r)
        (if two.sse < one.sse then 1 - x else x) := by
  unfold fallBackFlip setInvRel
  split_ifs with h <;> rfl

theorem dstAdjust_setInv (one two : Time) (r : RelTime) (x : Int) :
    dstAdjust one two (setInvRel r x) = setInvRel (dstAdjust one two r) x := by
  unfold dstAdjust setInvRel
  dsimp only []
  repeat' split
  all_goals rfl

theorem daysOfMonth_pos (leap : Bool) (month : Int) :
    1 ≤ daysOfMonth leap month := by
  unfold daysOfMonth
  split_ifs <;> norm_num

/-- The fuel of the forward borrow loop is irrelevant once it is at least
(0 - d).toNat: every pass adds at least 28 days, so the loop of the
original always terminates within that many passes. -/
theorem borrowFwd_fuel (f1 : Nat) : ∀ (f2 : Nat) (year month m d : Int),
    (0 - d).toNat ≤ f1 → (0 - d).toNat ≤ f2 →
    borrowFwd f1 year month m d = borrowFwd f2 year month m d := by
  induction f1 with
  | zero =>
    intro f2 year month m d h1 h2
    have hd : 0 ≤ d := by omega
    cases f2 with
    | zero => rfl
    | succ k2 =>
      show _ = borrowFwd (k2 + 1) year month m d
      unfold borrowFwd
      rw [if_neg (by omega)]
  | succ k ih =>
    intro f2 year month m d h1 h2
    by_cases hd : d < 0
    · cases f2 with
      | zero => exact absurd h2 (by omega)
      | succ k2 =>
        show borrowFwd (k + 1) year month m d =
          borrowFwd (k2 + 1) year month m d
        unfold borrowFwd
        rw [if_pos hd, if_pos hd]
        have hp := daysOfMonth_pos
          (timelib_is_leap (if month - 1 < 1 then year - 1 else year))
          (if month - 1 < 1 then month - 1 + 12 else month - 1)
        exact ih k2 _ _ (m - 1) _ (by omega) (by omega)
    · cases f2 with
      | zero =>
        show borrowFwd (k + 1) year month m d = (m, d)
        unfold borrowFwd
        rw [if_neg hd]
      | succ k2 =>
        show borrowFwd (k + 1) year month m d =
          borrowFwd (k2 + 1) year month m d
        unfold borrowFwd
        rw [if_neg hd, if_neg hd]

/-- The fuel of the backward borrow loop is irrelevant once it is at
least (0 - d).toNat. -/
theorem borrowInv_fuel (f1 : Nat) : ∀ (f2 : Nat) (year month m d : Int),
    (0 - d).toNat ≤ f1 → (0 - d).toNat ≤ f2 →
    borrowInv f1 year month m d = borrowInv f2 year month m d := by
  induction f1 with
  | zero =>
    intro f2 year month m d h1 h2
    have hd : 0 ≤ d := by omega
    cases f2 with
    | zero => rfl
    | succ k2 =>
      show _ = borrowInv (k2 + 1) year month m d
      unfold borrowInv
      rw [if_neg (by omega)]
  | succ k ih =>
    intro f2 year month m d h1 h2
    by_cases hd : d < 0
    · cases f2 with
      | zero => exact absurd h2 (by omega)
      | succ k2 =>
        show borrowInv (k + 1) year month m d =
          borrowInv (k2 + 1) year month m d
        unfold borrowInv
        rw [if_pos hd, if_pos hd]
        have hp := daysOfMonth_pos (timelib_is_leap year) month
        exact ih k2 _ _ (m - 1) _ (by omega) (by omega)
    · cases f2 with
      | zero =>
        show borrowInv (k + 1) year month m d = (m, d)
        unfold borrowInv
        rw [if_neg hd]
      | succ k2 =>
        show borrowInv (k + 1) year month m d =
          borrowInv (k2 + 1) year month m d
        unfold borrowInv
        rw [if_neg hd, if_neg hd]

/-- A nonnegative day component makes the day-to-month borrow a no-op in
both directions. -/
theorem days_relative_noBorrow (ay am m d inv : Int) (h : 0 ≤ d) :
    do_range_limit_days_relative ay am m d inv = (m, d) := by
  unfold do_range_limit_days_relative
  have hz : (0 - d).toNat = 0 := by omega
  rw [hz]
  split_ifs <;> rfl

/-- When no day-to-month borrow is needed, normalization does not depend
on the base instant or on the invert flag: it commutes with setting the
invert field. -/
theorem norm_noBorrow (b b' : Time) (r : RelTime) (x : Int)
    (h : 0 ≤ carriedDay r) :
    timelib_do_rel_normalize b (setInvRel r x) =
      setInvRel (timelib_do_rel_normalize b' r) x := by
  have h' : 0 ≤ carriedDay (setInvRel r x) := h
  unfold timelib_do_rel_normalize
  dsimp only []
  rw [days_relative_noBorrow _ _ _ _ _ h', days_relative_noBorrow _ _ _ _ _ h]
  rfl

/-- The magnitude fields of the sorted same-named-zone diff do not depend
on the incoming invert value, provided the day-to-month borrow is not
exercised. -/
theorem diffSorted_mag (o t : Time) (x : Int)
    (hb : 0 ≤ carriedDay (fallBackFlip o t (rawFieldSub o t zeroRel))) :
    magOf (diffWithTzidSorted o t x) = magOf (diffWithTzidSorted o t 0) := by
  have e : ∀ z : Int,
      ({ zeroRel with invert := z } : RelTime) = setInvRel zeroRel z :=
    fun z => rfl
  have er : ∀ (r : RelTime) (z : Int),
      rawFieldSub o t (setInvRel r z) = setInvRel (rawFieldSub o t r) z :=
    fun r z => rfl
  have en : ∀ (b : Time) (z : Int),
      timelib_do_rel_normalize b
          (setInvRel (fallBackFlip o t (rawFieldSub o t zeroRel)) z) =
        setInvRel (timelib_do_rel_normalize cexTime
          (fallBackFlip o t (rawFieldSub o t zeroRel))) z :=
    fun b z => norm_noBorrow b cexTime _ z hb
  have em : ∀ (r : RelTime) (z : Int), magOf (setInvRel r z) = magOf r :=
    fun r z => rfl
  unfold diffWithTzidSorted preAdjust
  simp only [e, er, flip_setInv, en, dstAdjust_setInv, em]

/-- The magnitude fields of the sorted cross-zone diff do not depend on
the incoming invert value, provided the day-to-month borrow is not
exercised. -/
theorem diffFallback_mag (o t : Time) (x : Int)
    (hb : 0 ≤ carriedDay (fallbackRel o t 0)) :
    magOf (diffFallback o t x) = magOf (diffFallback o t 0) := by
  have h1 : diffFallback o t x =
      setInvRel (timelib_do_rel_normalize cexTime (fallbackRel o t 0)) x :=
    norm_noBorrow (if (fallbackRel o t x).invert ≠ 0 then o else t) cexTime
      (fallbackRel o t 0) x hb
  have h0 : diffFallback o t 0 =
      setInvRel (timelib_do_rel_normalize cexTime (fallbackRel o t 0)) 0 :=
    norm_noBorrow (if (fallbackRel o t 0).invert ≠ 0 then o else t) cexTime
      (fallbackRel o t 0) 0 hb
  rw [h1, h0]
  rfl

theorem bothIdSameName_symm (a b : Time) :
    bothIdSameName a b ↔ bothIdSameName b a := by
  unfold bothIdSameName
  constructor <;> rintro ⟨h1, h2, h3⟩ <;> exact ⟨h2, h1, h3.symm⟩

theorem fieldLater_asymm (a b : Time) (h : fieldLater a b) :
    ¬ fieldLater b a := by
  unfold fieldLater at *; omega

theorem sseLater_asymm (a b : Time) (h : sseLater a b) : ¬ sseLater b a := by
  unfold sseLater at *; omega

theorem c1_core (a b : Time) (h : swapCond a b) (hnb : noDayBorrow a b) :
    magOf (timelib_diff a b) = magOf (timelib_diff b a) := by
  unfold swapCond at h
  by_cases hid : bothIdSameName a b
  · rw [if_pos hid] at h
    have hid' := (bothIdSameName_symm a b).mp hid
    have s1 : sort_old_to_new a b 0 = (b, a, 1) := by
      unfold sort_old_to_new; rw [if_pos hid, if_pos h]
    have s2 : sort_old_to_new b a 0 = (b, a, 0) := by
      unfold sort_old_to_new; rw [if_pos hid', if_neg (fieldLater_asymm a b h)]
    have hb := hnb.1 hid
    rw [s1] at hb
    unfold timelib_diff timelib_diff_with_tzid
    rw [if_pos hid, if_pos hid', s1, s2]
    exact diffSorted_mag b a 1 hb
  · rw [if_neg hid] at h
    have hid' : ¬ bothIdSameName b a := fun hh => hid ((bothIdSameName_symm a b).mpr hh)
    have s1 : sort_old_to_new a b 0 = (b, a, 1) := by
      unfold sort_old_to_new; rw [if_neg hid, if_pos h]
    have s2 : sort_old_to_new b a 0 = (b, a, 0) := by
      unfold sort_old_to_new; rw [if_neg hid', if_neg (sseLater_asymm a b h)]
    have hb := hnb.2 hid
    rw [s1] at hb
    unfold timelib_diff
    rw [if_neg hid, if_neg hid', s1, s2]
    exact diffFallback_mag b a 1 hb

/-- C1 is false as stated, at two explicit inputs.  At the tied pair
cxA/cxB, diff(a, b) and diff(b, a) differ in the year magnitude (+1
against -1), not only in the invert flag.  At the strictly field-ordered
same-named-zone pair mbA/mbB (2021-01-31 and 2021-03-01), the
normalizer's day-to-month borrow runs against different base instants in
the two directions, giving 0 months 29 days against 1 month 1 day. -/
theorem c1_counterexample :
    (¬ ((timelib_diff cxA cxB).y = (timelib_diff cxB cxA).y ∧
        (timelib_diff cxA cxB).m = (timelib_diff cxB cxA).m ∧
        (timelib_diff cxA cxB).d = (timelib_diff cxB cxA).d ∧
        (timelib_diff cxA cxB).h = (timelib_diff cxB cxA).h ∧
        (timelib_diff cxA cxB).i = (timelib_diff cxB cxA).i ∧
        (timelib_diff cxA cxB).s = (timelib_diff cxB cxA).s ∧
        (timelib_diff cxA cxB).us = (timelib_diff cxB cxA).us ∧
        (timelib_diff cxA cxB).days = (timelib_diff cxB cxA).days)) ∧
    (¬ ((timelib_diff mbA mbB).y = (timelib_diff mbB mbA).y ∧
        (timelib_diff mbA mbB).m = (timelib_diff mbB mbA).m ∧
        (timelib_diff mbA mbB).d = (timelib_diff mbB mbA).d ∧
        (timelib_diff mbA mbB).h = (timelib_diff mbB mbA).h ∧
        (timelib_diff mbA mbB).i = (timelib_diff mbB mbA).i ∧
        (timelib_diff mbA mbB).s = (timelib_diff mbB mbA).s ∧
        (timelib_diff mbA mbB).us = (timelib_diff mbB mbA).us ∧
        (timelib_diff mbA mbB).days = (timelib_diff mbB mbA).days)) ∧
    (timelib_diff mbA mbB).m = 0 ∧ (timelib_diff mbA mbB).d = 29 ∧
    (timelib_diff mbB mbA).m = 1 ∧ (timelib_diff mbB mbA).d = 1 := by
  decide

/-- C1 (amended): for every pair of instants that the ordering comparison
used by diff strictly orders (one of them compares later than the other)
or that are identical, and whose working interval has a nonnegative day
component after the sub-day carries (so the normalizer's day-to-month
borrow, which runs against different base instants in the two directions,
is not exercised), diff(a, b) and diff(b, a) differ at most in the invert
flag: the year, month, day, hour, minute, second, microsecond and days
magnitude fields are pairwise equal. -/
theorem c1_antisymmetry_amended (a b : Time)
    (h : swapCond a b ∨ swapCond b a ∨ a = b)
    (hnb1 : noDayBorrow a b) (hnb2 : noDayBorrow b a) :
    (timelib_diff a b).y = (timelib_diff b a).y ∧
    (timelib_diff a b).m = (timelib_diff b a).m ∧
    (timelib_diff a b).d = (timelib_diff b a).d ∧
    (timelib_diff a b).h = (timelib_diff b a).h ∧
    (timelib_diff a b).i = (timelib_diff b a).i ∧
    (timelib_diff a b).s = (timelib_diff b a).s ∧
    (timelib_diff a b).us = (timelib_diff b a).us ∧
    (timelib_diff a b).days = (timelib_diff b a).days := by
  have hm : magOf (timelib_diff a b) = magOf (timelib_diff b a) := by
    rcases h with h | h | h
    · exact c1_core a b h hnb1
    · exact (c1_core b a h hnb2).symm
    · rw [h]
  simp only [magOf, List.cons.injEq, and_true] at hm
  exact ⟨hm.1, hm.2.1, hm.2.2.1, hm.2.2.2.1, hm.2.2.2.2.1, hm.2.2.2.2.2.1,
    hm.2.2.2.2.2.2.1, hm.2.2.2.2.2.2.2⟩

/-- Witness for C1 (amended) at a strictly ordered concrete pair. -/
theorem c1_witness :
    (timelib_diff cxLater cexTime).y = (timelib_diff cexTime cxLater).y ∧
    (timelib_diff cxLater cexTime).m = (timelib_diff cexTime cxLater).m ∧
    (timelib_diff cxLater cexTime).d = (timelib_diff cexTime cxLater).d ∧
    (timelib_diff cxLater cexTime).h = (timelib_diff cexTime cxLater).h ∧
    (timelib_diff cxLater cexTime).i = (timelib_diff cexTime cxLater).i ∧
    (timelib_diff cxLater cexTime).s = (timelib_diff cexTime cxLater).s ∧
    (timelib_diff cxLater cexTime).us = (timelib_diff cexTime cxLater).us ∧
    (timelib_diff cxLater cexTime).days = (timelib_diff cexTime cxLater).days :=
  c1_antisymmetry_amended cxLater cexTime (Or.inl (by decide)) (by decide)
    (by decide)
